import Mathlib

/-!
Verification development for the UNM-Server music-source core.

Shallow embedding of:
* `SourceRankingService` (source statistics registry, ranking, network
  adjustment) from `src/services/.../SourceRankingService`;
* `CacheService` (two-tier cache store with stats) from
  `src/services/cache/CacheService.ts`;
* `SongCacheService` (key scheme and song-level cache operations) from
  `src/services/cache/SongCacheService.ts`.

JS `number` values are modelled by `ℚ` (exact arithmetic; every concrete
value appearing in the spec scenarios is exactly representable as a binary
float, so the rational model agrees with the float computation there).
JS `Map` objects and the internal stores of the cache tiers are modelled by
association lists with first-match lookup and in-place update.
JS `Array.prototype.sort` (stable since ES2019) is modelled by a stable
insertion sort parameterised by the boolean relation `comparator(a,b) ≤ 0`.
Wall-clock time is passed explicitly as a parameter `now`.
-/

namespace UNM

/- The Batteries rational-number operations are `@[irreducible]`; make them
reducible inside this development so that concrete scenarios can be settled
by kernel evaluation (`decide`). -/
attribute [local semireducible] Rat.add Rat.mul Rat.inv Rat.sub

/-! ### Association-list maps (model of JS `Map` / the cache key stores) -/

/-- First-match lookup in an association list keyed by strings. -/
def alookup {β : Type} : List (String × β) → String → Option β
  | [], _ => none
  | (k, v) :: rest, key => if k = key then some v else alookup rest key

/-- In-place update: replaces the first binding of `key`, or appends one.
Models `Map.prototype.set`. -/
def aset {β : Type} : List (String × β) → String → β → List (String × β)
  | [], key, v => [(key, v)]
  | (k, w) :: rest, key, v =>
      if k = key then (key, v) :: rest else (k, w) :: aset rest key v

/-- Deletion of a key's bindings. Models `Map.prototype.delete`. -/
def adel {β : Type} (m : List (String × β)) (key : String) : List (String × β) :=
  m.filter (fun kv => !(kv.1 = key : Bool))

theorem alookup_aset_self {β : Type} (m : List (String × β)) (k : String) (v : β) :
    alookup (aset m k v) k = some v := by
  induction m with
  | nil => simp [aset, alookup]
  | cons kv rest ih =>
      by_cases h : kv.1 = k
      · simp [aset, h, alookup]
      · simp [aset, h, alookup, ih]

theorem alookup_aset_other {β : Type} (m : List (String × β)) (k k' : String) (v : β)
    (h : k ≠ k') : alookup (aset m k v) k' = alookup m k' := by
  induction m with
  | nil => simp [aset, alookup, h]
  | cons kv rest ih =>
      by_cases hk : kv.1 = k
      · simp [aset, hk, alookup, h]
      · simp only [aset, hk, if_neg, alookup]
        by_cases hk' : kv.1 = k'
        · simp [hk']
        · simp [hk', ih]

/-! ### Stable sort with a JS comparator

`sortCmp le` is a stable insertion sort: an element is inserted before the
first already-placed element `y` with `le x y`.  With
`le x y := comparator x y ≤ 0` this computes the unique stable ascending
order determined by a consistent JS comparator, which is what
`Array.prototype.sort` produces (TimSort, stable per ES2019). -/

/-- Insert `x` before the first element `y` of the (sorted) list with `le x y`. -/
def insertCmp {α : Type} (le : α → α → Bool) (x : α) : List α → List α
  | [] => [x]
  | y :: ys => if le x y then x :: y :: ys else y :: insertCmp le x ys

/-- Stable insertion sort; models `Array.prototype.sort(comparator)`. -/
def sortCmp {α : Type} (le : α → α → Bool) : List α → List α
  | [] => []
  | x :: xs => insertCmp le x (sortCmp le xs)

theorem insertCmp_perm {α : Type} (le : α → α → Bool) (x : α) (l : List α) :
    List.Perm (insertCmp le x l) (x :: l) := by
  induction l with
  | nil => simp [insertCmp]
  | cons y ys ih =>
      by_cases h : le x y
      · simp [insertCmp, h]
      · simp only [insertCmp, h, Bool.false_eq_true, if_false]
        exact ((ih.cons y).trans (List.Perm.swap x y ys))

theorem sortCmp_perm {α : Type} (le : α → α → Bool) (l : List α) :
    List.Perm (sortCmp le l) l := by
  induction l with
  | nil => simp [sortCmp]
  | cons x xs ih =>
      exact (insertCmp_perm le x (sortCmp le xs)).trans (ih.cons x)

theorem mem_sortCmp {α : Type} (le : α → α → Bool) (l : List α) (x : α) :
    x ∈ sortCmp le l ↔ x ∈ l :=
  (sortCmp_perm le l).mem_iff

/-! ### SourceRankingService

Embedding of `SourceRankingService`.  The `sourceStats` map is an
association list; the configured `config.DEFAULT_SOURCES` list is passed as
the parameter `ds` (it is read from the environment at startup;
`DEFAULT_SOURCES` below is its hard-coded fallback from `src/config.ts`).
`0.4`, `0.2` and `0.8` are written as the exact rationals `2/5`, `1/5`,
`4/5`. -/

/-- The `SourceStats` record of `SourceRankingService`. -/
structure SourceStats where
  availableCount : Nat
  totalRequests : Nat
  avgResponseTime : ℚ
  lastSuccess : Option Nat
  lastFailure : Option Nat
  successRate : ℚ
  qualityScore : ℚ
deriving DecidableEq

/-- The per-source statistics registry (`this.sourceStats : Map<string, SourceStats>`). -/
def StatsMap : Type := List (String × SourceStats)

def StatsMap.find (m : StatsMap) (source : String) : Option SourceStats :=
  alookup m source

def StatsMap.set (m : StatsMap) (source : String) (v : SourceStats) : StatsMap :=
  aset m source v

/-- A zeroed stats entry with the given quality score (the object literal used
both by `initSourceStats` and for a new source in `recordSourceResult`). -/
def freshStats (quality : ℚ) : SourceStats :=
  { availableCount := 0, totalRequests := 0, avgResponseTime := 0,
    lastSuccess := none, lastFailure := none, successRate := 0,
    qualityScore := quality }

/-- `DEFAULT_QUALITY_SCORES`, in declaration order. -/
def DEFAULT_QUALITY_SCORES : List (String × ℚ) :=
  [("qq", 85), ("kugou", 80), ("kuwo", 75), ("migu", 90), ("joox", 70),
   ("youtube", 88), ("ytdlp", 95), ("bilibili", 65), ("pyncmd", 60)]

/-- The registry produced by `initSourceStats` (in Node, `localStorage` is
undefined, so `loadStatsFromStorage` is a no-op). -/
def initStats : StatsMap :=
  DEFAULT_QUALITY_SCORES.map (fun p => (p.1, freshStats p.2))

/-- Hard-coded fallback of `config.DEFAULT_SOURCES` (`src/config.ts`). -/
def DEFAULT_SOURCES : List String :=
  ["kugou", "kuwo", "migu", "ytdlp", "bilibili"]

/-- The mutation performed by `recordSourceResult` on the (possibly fresh)
stats record, statement for statement: post-increment `totalRequests`; on
success post-increment `availableCount`, stamp `lastSuccess` and update the
running mean with the post-increment count; on failure stamp `lastFailure`;
finally recompute `successRate`. -/
def recordStep (stats0 : SourceStats) (success : Bool) (responseTime : ℚ)
    (now : Nat) : SourceStats :=
  let stats1 := { stats0 with totalRequests := stats0.totalRequests + 1 }
  let stats2 :=
    if success then
      let statsS := { stats1 with
        availableCount := stats1.availableCount + 1,
        lastSuccess := some now }
      { statsS with avgResponseTime :=
          (statsS.avgResponseTime * ((statsS.availableCount : ℚ) - 1) + responseTime)
            / (statsS.availableCount : ℚ) }
    else
      { stats1 with lastFailure := some now }
  { stats2 with
    successRate := (stats2.availableCount : ℚ) / (stats2.totalRequests : ℚ) }

/-- `recordSourceResult(source, success, responseTime)`; `now` models
`Date.now()`.  A missing source gets the fresh default-quality entry
(`qualityScore: 70`); the updated record is written back with `Map.set`.
(`saveStatsToStorage` is a no-op in Node: `localStorage` is undefined.) -/
def recordSourceResult (m : StatsMap) (source : String) (success : Bool)
    (responseTime : ℚ) (now : Nat) : StatsMap :=
  m.set source
    (recordStep ((m.find source).getD (freshStats 70)) success responseTime now)

/-- The filter predicate of `rankSources`: drop a candidate with statistics
when `totalRequests > 5 && successRate < 0.2`; keep everything else. -/
def rankFilter (m : StatsMap) (source : String) : Bool :=
  match m.find source with
  | some stats =>
      if stats.totalRequests > 5 ∧ stats.successRate < 1/5 then false else true
  | none => true

/-- `Array.prototype.indexOf`: first index, `-1` when absent. -/
def jsIndexOf (l : List String) (s : String) : Int :=
  match l.findIdx? (fun x => x = s) with
  | some i => (i : Int)
  | none => -1

/-- The composite score of the `rankSources` comparator:
`successRate*0.4 + qualityScore/100*0.4 + max(0, (1000-avgResponseTime)/1000)*0.2`. -/
def compositeScore (stats : SourceStats) : ℚ :=
  stats.successRate * (2/5) + stats.qualityScore / 100 * (2/5) +
    max 0 ((1000 - stats.avgResponseTime) / 1000) * (1/5)

/-- The default-order branch of the comparator (taken when either side lacks
a stats entry). -/
def defaultOrderCmp (ds : List String) (a b : String) : ℚ :=
  let ia := jsIndexOf ds a
  let ib := jsIndexOf ds b
  if ia ≠ -1 ∧ ib ≠ -1 then ((ia - ib : Int) : ℚ)
  else if ia ≠ -1 then -1
  else if ib ≠ -1 then 1
  else 0

/-- The `rankSources` comparator: composite scores (descending) when both
sides have stats entries, otherwise the static default order. -/
def sourceCmp (m : StatsMap) (ds : List String) (a b : String) : ℚ :=
  match m.find a, m.find b with
  | some statsA, some statsB => compositeScore statsB - compositeScore statsA
  | _, _ => defaultOrderCmp ds a b

/-- `rankSources(sources)`: empty input falls back to the configured default
sources, then filter, then sort by the comparator. -/
def rankSources (m : StatsMap) (ds : List String) (sources : List String) :
    List String :=
  let sources := if sources.isEmpty then ds else sources
  sortCmp (fun a b => decide (sourceCmp m ds a b ≤ 0))
    (sources.filter (rankFilter m))

/-- `getBestSource(sources)`: head of the ranking, or null. -/
def getBestSource (m : StatsMap) (ds : List String) (sources : List String) :
    Option String :=
  (rankSources m ds sources).head?

/-- The network-type union of `adjustSourcesForNetwork`. -/
inductive NetworkType where
  | wifi | fourG | threeG | twoG | unknown
deriving DecidableEq

/-- `adjustSourcesForNetwork(sources, networkType)`. -/
def adjustSourcesForNetwork (m : StatsMap) (ds : List String)
    (sources : List String) (networkType : NetworkType) : List String :=
  let ranked := rankSources m ds sources
  match networkType with
  | .wifi => ranked
  | .fourG =>
      ((sortCmp (fun a b => decide (b.2 - a.2 ≤ (0 : ℚ)))
        (ranked.map (fun source =>
          match m.find source with
          | some stats =>
              if stats.qualityScore > 90 ∧ stats.avgResponseTime > 500 then
                (source, stats.qualityScore * (4/5))
              else (source, stats.qualityScore)
          | none => (source, 70)))).map (fun item => item.1))
  | .threeG | .twoG =>
      ranked.filter (fun source =>
        match m.find source with
        | some stats =>
            !(decide (stats.qualityScore > 85 ∧ stats.avgResponseTime > 300))
        | none => true)
  | .unknown => ranked

/-! ### Registry lemmas -/

theorem find_recordSourceResult_self (m : StatsMap) (source : String)
    (success : Bool) (rt : ℚ) (now : Nat) :
    (recordSourceResult m source success rt now).find source =
      some (recordStep ((m.find source).getD (freshStats 70)) success rt now) :=
  alookup_aset_self m source _

theorem recordStep_totalRequests (st : SourceStats) (success : Bool) (rt : ℚ)
    (now : Nat) : (recordStep st success rt now).totalRequests = st.totalRequests + 1 := by
  cases success <;> simp [recordStep]

theorem recordStep_availableCount (st : SourceStats) (success : Bool) (rt : ℚ)
    (now : Nat) : (recordStep st success rt now).availableCount =
      st.availableCount + (if success then 1 else 0) := by
  cases success <;> simp [recordStep]

theorem recordStep_avg_success (st : SourceStats) (rt : ℚ) (now : Nat) :
    (recordStep st true rt now).avgResponseTime =
      (st.avgResponseTime * (((st.availableCount + 1 : Nat) : ℚ) - 1) + rt) /
        ((st.availableCount + 1 : Nat) : ℚ) := by
  simp [recordStep]

theorem recordStep_avg_failure (st : SourceStats) (rt : ℚ) (now : Nat) :
    (recordStep st false rt now).avgResponseTime = st.avgResponseTime := by
  simp [recordStep]

/-! ### Claims about the statistics registry -/

/-- **C3** — Running-average correctness of the statistics registry:
`recordResult` updates the stored average response time only on successful
calls, via `avg' = (avg * (availableCount-1) + responseTimeMs) / availableCount`
with `availableCount` the post-increment success count; a failed call leaves
it unchanged; and from a fresh (zeroed) entry three successes with latencies
100, 200, 300 leave the average at 200. -/
theorem running_average_correctness :
    (∀ (m : StatsMap) (source : String) (st : SourceStats) (rt : ℚ) (now : Nat),
       m.find source = some st →
       ((recordSourceResult m source false rt now).find source).map
           (fun s => s.avgResponseTime) = some st.avgResponseTime) ∧
    (∀ (m : StatsMap) (source : String) (st : SourceStats) (rt : ℚ) (now : Nat),
       m.find source = some st →
       ∃ st', (recordSourceResult m source true rt now).find source = some st' ∧
         st'.availableCount = st.availableCount + 1 ∧
         st'.avgResponseTime =
           (st.avgResponseTime * ((st'.availableCount : ℚ) - 1) + rt) /
             (st'.availableCount : ℚ)) ∧
    ((StatsMap.find
        (recordSourceResult (recordSourceResult (recordSourceResult
          [("s", freshStats 70)] "s" true 100 0) "s" true 200 1) "s" true 300 2)
        "s").map (fun s => s.avgResponseTime) = some 200) := by
  refine ⟨?_, ?_, ?_⟩
  · intro m source st rt now h
    rw [find_recordSourceResult_self, h]
    simp [recordStep_avg_failure]
  · intro m source st rt now h
    refine ⟨_, find_recordSourceResult_self m source true rt now, ?_, ?_⟩
    · rw [h]
      simp [recordStep_availableCount]
    · rw [h]
      simp only [Option.getD_some, recordStep_avg_success,
        recordStep_availableCount, if_pos trivial]
  · decide

/-- Witness for `running_average_correctness` at a concrete registry. -/
theorem running_average_correctness_witness :
    ((recordSourceResult [("s", freshStats 70)] "s" false 5 3).find "s").map
        (fun s => s.avgResponseTime) = some (freshStats 70).avgResponseTime ∧
    (∃ st', (recordSourceResult [("s", freshStats 70)] "s" true 5 3).find "s" =
        some st' ∧
      st'.availableCount = (freshStats 70).availableCount + 1 ∧
      st'.avgResponseTime =
        ((freshStats 70).avgResponseTime * ((st'.availableCount : ℚ) - 1) + 5) /
          (st'.availableCount : ℚ)) :=
  ⟨running_average_correctness.1 [("s", freshStats 70)] "s" (freshStats 70) 5 3 rfl,
   running_average_correctness.2.1 [("s", freshStats 70)] "s" (freshStats 70) 5 3 rfl⟩

/-- One `recordSourceResult` call (arguments of a single invocation). -/
structure CallRec where
  success : Bool
  responseTime : ℚ
  now : Nat

/-- A sequence of `recordSourceResult` calls for one source, applied in order. -/
def runCalls (m : StatsMap) (source : String) : List CallRec → StatsMap
  | [] => m
  | c :: cs =>
      runCalls (recordSourceResult m source c.success c.responseTime c.now) source cs

/-- The `totalRequests` counter visible for `source` (0 when no entry exists,
matching the zeroed entry `recordSourceResult` would start from). -/
def trOf (m : StatsMap) (source : String) : Nat :=
  ((m.find source).map (fun st => st.totalRequests)).getD 0

/-- The `availableCount` counter visible for `source` (0 when no entry exists). -/
def acOf (m : StatsMap) (source : String) : Nat :=
  ((m.find source).map (fun st => st.availableCount)).getD 0

theorem trOf_recordSourceResult (m : StatsMap) (source : String) (b : Bool)
    (rt : ℚ) (now : Nat) :
    trOf (recordSourceResult m source b rt now) source = trOf m source + 1 := by
  unfold trOf
  rw [find_recordSourceResult_self]
  cases h : m.find source <;>
    simp [h, recordStep_totalRequests, freshStats]

theorem acOf_recordSourceResult (m : StatsMap) (source : String) (b : Bool)
    (rt : ℚ) (now : Nat) :
    acOf (recordSourceResult m source b rt now) source =
      acOf m source + (if b then 1 else 0) := by
  unfold acOf
  rw [find_recordSourceResult_self]
  cases h : m.find source <;>
    simp [h, recordStep_availableCount, freshStats]

theorem trOf_runCalls (source : String) (calls : List CallRec) :
    ∀ m : StatsMap, trOf (runCalls m source calls) source =
      trOf m source + calls.length := by
  induction calls with
  | nil => intro m; simp [runCalls]
  | cons c cs ih =>
      intro m
      simp only [runCalls, ih, trOf_recordSourceResult, List.length_cons]
      omega

theorem acOf_le_trOf_runCalls (source : String) (calls : List CallRec) :
    ∀ m : StatsMap, acOf m source ≤ trOf m source →
      acOf (runCalls m source calls) source ≤ trOf (runCalls m source calls) source := by
  induction calls with
  | nil => intro m h; simpa [runCalls] using h
  | cons c cs ih =>
      intro m h
      refine ih _ ?_
      rw [acOf_recordSourceResult, trOf_recordSourceResult]
      cases c.success <;> simp <;> omega

/-- **C6** — Monotonic counters invariant: starting from a fresh (zeroed — or
absent, which `recordResult` treats identically) entry for `source`, after any
prefix of a sequence of `recordResult` calls `totalRequests` equals the number
of calls made and `availableCount ≤ totalRequests` holds; consequently
`totalRequests` is non-decreasing along the sequence. -/
theorem monotonic_counters (m : StatsMap) (source : String) (calls : List CallRec)
    (h0 : trOf m source = 0 ∧ acOf m source = 0) :
    (∀ pre, pre <+: calls →
       trOf (runCalls m source pre) source = pre.length ∧
       acOf (runCalls m source pre) source ≤ trOf (runCalls m source pre) source) ∧
    (∀ pre₁ pre₂, pre₁ <+: pre₂ → pre₂ <+: calls →
       trOf (runCalls m source pre₁) source ≤ trOf (runCalls m source pre₂) source) := by
  have htr : ∀ pre : List CallRec, trOf (runCalls m source pre) source = pre.length := by
    intro pre
    rw [trOf_runCalls, h0.1]
    omega
  refine ⟨fun pre _ => ⟨htr pre, ?_⟩, fun pre₁ pre₂ h12 _ => ?_⟩
  · exact acOf_le_trOf_runCalls source pre m (by rw [h0.1, h0.2])
  · rw [htr pre₁, htr pre₂]
    exact h12.length_le

/-- Witness for `monotonic_counters`: a success then a failure on a fresh
entry gives `totalRequests = 2` with `availableCount ≤ totalRequests`. -/
theorem monotonic_counters_witness :
    trOf (runCalls [("s", freshStats 70)] "s" [⟨true, 100, 0⟩, ⟨false, 0, 1⟩]) "s" = 2 ∧
    acOf (runCalls [("s", freshStats 70)] "s" [⟨true, 100, 0⟩, ⟨false, 0, 1⟩]) "s" ≤
      trOf (runCalls [("s", freshStats 70)] "s" [⟨true, 100, 0⟩, ⟨false, 0, 1⟩]) "s" :=
  (monotonic_counters [("s", freshStats 70)] "s" [⟨true, 100, 0⟩, ⟨false, 0, 1⟩]
      ⟨rfl, rfl⟩).1 [⟨true, 100, 0⟩, ⟨false, 0, 1⟩] (List.prefix_refl _)

/-! ### Claims about ranking -/

theorem rankFilter_eq_true_iff (m : StatsMap) (x : String) :
    rankFilter m x = true ↔
      ∀ st, m.find x = some st → ¬(st.totalRequests > 5 ∧ st.successRate < 1/5) := by
  cases h : m.find x with
  | none => simp [rankFilter, h]
  | some st =>
      simp only [rankFilter, h]
      by_cases hc : st.totalRequests > 5 ∧ st.successRate < 1/5
      · simp only [if_pos hc]
        constructor
        · intro hx
          exact absurd hx (by simp)
        · intro hall
          exact absurd hc (hall st rfl)
      · simp only [if_neg hc]
        constructor
        · intro _ st' hst'
          injection hst' with he
          subst he
          exact hc
        · intro _
          trivial

/-- **C4** — Reliability filter of ranking: on a non-empty candidate list,
`rankSources` output contains exactly the candidates that are not excluded by
the `totalRequests > 5 && successRate < 0.2` rule (candidates without a
registry entry are always kept). -/
theorem reliability_filter (m : StatsMap) (ds : List String)
    (candidates : List String) (x : String) (hne : candidates ≠ []) :
    x ∈ rankSources m ds candidates ↔
      x ∈ candidates ∧
        ∀ st, m.find x = some st →
          ¬(st.totalRequests > 5 ∧ st.successRate < 1/5) := by
  have hni : candidates.isEmpty = false := by
    cases candidates with
    | nil => exact absurd rfl hne
    | cons a l => rfl
  rw [show rankSources m ds candidates =
        sortCmp (fun a b => decide (sourceCmp m ds a b ≤ 0))
          (candidates.filter (rankFilter m)) by
      unfold rankSources
      rw [hni]
      rfl]
  rw [mem_sortCmp, List.mem_filter, rankFilter_eq_true_iff]

/-- Witness for `reliability_filter`: the source `"bad"` with
`totalRequests = 10`, `successRate = 0.1` does not appear in the ranking of
`["bad", "good"]`, where `"good"` has no registry entry. -/
theorem reliability_filter_witness :
    "bad" ∉ rankSources
        [("bad", { freshStats 70 with
                   totalRequests := 10
                   availableCount := 1
                   successRate := 1/10 })] [] ["bad", "good"] := by
  intro hmem
  have h := (reliability_filter
      [("bad", { freshStats 70 with
                 totalRequests := 10
                 availableCount := 1
                 successRate := 1/10 })] [] ["bad", "good"] "bad"
      (by simp)).mp hmem
  exact h.2 _ rfl (by norm_num)

/-- **C1 (amended)** — For an empty candidate list, `rankSources` falls back to
the configured default-source list: it returns exactly what it would return on
the defaults themselves, and `getBestSource` returns the head of that ranking
(null only when it is empty). -/
theorem empty_candidates_fallback (m : StatsMap) (ds : List String) :
    rankSources m ds [] = rankSources m ds ds ∧
    getBestSource m ds [] = (rankSources m ds ds).head? := by
  have h : rankSources m ds [] = rankSources m ds ds := by
    unfold rankSources
    cases ds with
    | nil => rfl
    | cons a l => rfl
  exact ⟨h, by rw [getBestSource, h]⟩

/-- **C1 (counterexample)** — With the seeded registry and the hard-coded
default-source configuration, `rankSources([])` is not empty and
`getBestSource([])` is not null: the empty candidate list falls back to the
configured defaults instead of yielding an empty ranking. -/
theorem empty_candidates_counterexample :
    rankSources initStats DEFAULT_SOURCES [] =
      ["ytdlp", "migu", "kugou", "kuwo", "bilibili"] ∧
    getBestSource initStats DEFAULT_SOURCES [] = some "ytdlp" := by
  constructor <;> decide

/-- **C10** — Default-order branch of the sort comparator: when one of two
surviving candidates has no stats entry, the pair is ordered by position in
the configured default-source list and the composite score is ignored; so for
a two-candidate list `[a, b]` where `a` has a stats entry and passes the
reliability filter, `b` has no entry, and `b` precedes `a` in the
default-source list, `rankSources([a, b]) = [b, a]` regardless of `a`'s score. -/
theorem default_order_when_stats_missing (m : StatsMap) (ds : List String)
    (a b : String) (sa : SourceStats) (ia ib : Nat)
    (ha : m.find a = some sa) (hb : m.find b = none)
    (hfa : rankFilter m a = true)
    (hia : ds.findIdx? (fun x => x = a) = some ia)
    (hib : ds.findIdx? (fun x => x = b) = some ib)
    (hord : ib < ia) :
    rankSources m ds [a, b] = [b, a] := by
  have hfb : rankFilter m b = true := by simp [rankFilter, hb]
  have hja : jsIndexOf ds a = (ia : Int) := by simp [jsIndexOf, hia]
  have hjb : jsIndexOf ds b = (ib : Int) := by simp [jsIndexOf, hib]
  have hd : defaultOrderCmp ds a b = (((ia : Int) - (ib : Int) : Int) : ℚ) := by
    unfold defaultOrderCmp
    rw [hja, hjb, if_pos ⟨by omega, by omega⟩]
  have hs : sourceCmp m ds a b = (((ia : Int) - (ib : Int) : Int) : ℚ) := by
    rw [show sourceCmp m ds a b = defaultOrderCmp ds a b by
      simp only [sourceCmp, ha, hb]]
    exact hd
  have hpos : (0 : ℚ) < (((ia : Int) - (ib : Int) : Int) : ℚ) := by
    have h1 : (0 : Int) < (ia : Int) - (ib : Int) := by omega
    exact_mod_cast h1
  have hcmp : ¬(sourceCmp m ds a b ≤ 0) := by
    rw [hs]
    exact not_le.mpr hpos
  show sortCmp (fun x y => decide (sourceCmp m ds x y ≤ 0))
      (List.filter (rankFilter m) [a, b]) = [b, a]
  rw [show List.filter (rankFilter m) [a, b] = [a, b] by
    simp [List.filter_cons, hfa, hfb]]
  simp [sortCmp, insertCmp, hcmp]

/-- Witness for `default_order_when_stats_missing` at a concrete registry and
default list. -/
theorem default_order_when_stats_missing_witness :
    rankSources [("a", freshStats 95)] ["b", "a"] ["a", "b"] = ["b", "a"] :=
  default_order_when_stats_missing [("a", freshStats 95)] ["b", "a"] "a" "b"
    (freshStats 95) 1 0 rfl rfl (by decide) (by decide) (by decide) (by decide)

/-- **C5** — Network adjustment under constrained networks: for `3g`/`2g` the
adjusted list is the ranked list minus exactly those candidates whose registry
entry has `qualityScore > 85` and `avgResponseTime > 300`; in particular, for
A (`qualityScore=95, avgResponseTime=800`) and B
(`qualityScore=70, avgResponseTime=100`), both of which pass the reliability
filter, `adjustSourcesForNetwork([A,B], "3g") = [B]`. -/
theorem filter_pair_ff_tt {α : Type} (p : α → Bool) (x y : α)
    (hx : p x = false) (hy : p y = true) : (x :: [y]).filter p = [y] := by
  simp [List.filter_cons, hx, hy]

theorem filter_pair_tt_ff {α : Type} (p : α → Bool) (x y : α)
    (hx : p x = true) (hy : p y = false) : (x :: [y]).filter p = [x] := by
  simp [List.filter_cons, hx, hy]

theorem network_adjustment :
    (∀ (m : StatsMap) (ds sources : List String) (nt : NetworkType) (x : String),
       nt = NetworkType.threeG ∨ nt = NetworkType.twoG →
       (x ∈ adjustSourcesForNetwork m ds sources nt ↔
         x ∈ rankSources m ds sources ∧
           ¬∃ st, m.find x = some st ∧
             st.qualityScore > 85 ∧ st.avgResponseTime > 300)) ∧
    (∀ (m : StatsMap) (ds : List String) (a b : String) (sa sb : SourceStats),
       m.find a = some sa → m.find b = some sb →
       sa.qualityScore = 95 → sa.avgResponseTime = 800 →
       sb.qualityScore = 70 → sb.avgResponseTime = 100 →
       rankFilter m a = true → rankFilter m b = true →
       adjustSourcesForNetwork m ds [a, b] NetworkType.threeG = [b]) := by
  have hkeep : ∀ (m : StatsMap) (x : String),
      ((match m.find x with
        | some stats =>
            !(decide (stats.qualityScore > 85 ∧ stats.avgResponseTime > 300))
        | none => true) = true) ↔
        ¬∃ st, m.find x = some st ∧
          st.qualityScore > 85 ∧ st.avgResponseTime > 300 := by
    intro m x
    cases h : m.find x with
    | none => simp [h]
    | some st =>
        simp [h]
        rw [or_iff_not_imp_left, not_le]
  constructor
  · intro m ds sources nt x hnt
    have harm : adjustSourcesForNetwork m ds sources nt =
        (rankSources m ds sources).filter (fun source =>
          match m.find source with
          | some stats =>
              !(decide (stats.qualityScore > 85 ∧ stats.avgResponseTime > 300))
          | none => true) := by
      rcases hnt with h | h <;> subst h <;> rfl
    rw [harm, List.mem_filter]
    exact and_congr_right (fun _ => hkeep m x)
  · intro m ds a b sa sb ha hb hqa hra hqb hrb hfa hfb
    have hpa : (match m.find a with
        | some stats =>
            !(decide (stats.qualityScore > 85 ∧ stats.avgResponseTime > 300))
        | none => true) = false := by
      rw [ha]
      simp only [Bool.not_eq_false', decide_eq_true_eq]
      rw [hqa, hra]
      norm_num
    have hpb : (match m.find b with
        | some stats =>
            !(decide (stats.qualityScore > 85 ∧ stats.avgResponseTime > 300))
        | none => true) = true := by
      rw [hb]
      simp only [Bool.not_eq_true', decide_eq_false_iff_not]
      rw [hqb]
      norm_num
    have hrank : rankSources m ds [a, b] =
        sortCmp (fun x y => decide (sourceCmp m ds x y ≤ 0)) [a, b] := by
      show sortCmp (fun x y => decide (sourceCmp m ds x y ≤ 0))
          (List.filter (rankFilter m) [a, b]) = _
      rw [show List.filter (rankFilter m) [a, b] = [a, b] by
        simp [List.filter_cons, hfa, hfb]]
    show (rankSources m ds [a, b]).filter _ = [b]
    rw [hrank]
    by_cases hle : (sourceCmp m ds a b ≤ 0)
    · rw [show sortCmp (fun x y => decide (sourceCmp m ds x y ≤ 0)) [a, b] =
          [a, b] by simp [sortCmp, insertCmp, hle]]
      exact filter_pair_ff_tt _ a b hpa hpb
    · rw [show sortCmp (fun x y => decide (sourceCmp m ds x y ≤ 0)) [a, b] =
          [b, a] by simp [sortCmp, insertCmp, hle]]
      exact filter_pair_tt_ff _ b a hpb hpa

/-- Concrete A entry for the network-adjustment scenario. -/
def netStatsA : SourceStats := { freshStats 95 with avgResponseTime := 800 }

/-- Concrete B entry for the network-adjustment scenario. -/
def netStatsB : SourceStats := { freshStats 70 with avgResponseTime := 100 }

/-- Concrete registry for the network-adjustment scenario. -/
def netRegistry : StatsMap := [("A", netStatsA), ("B", netStatsB)]

/-- Witness for `network_adjustment`: the concrete A/B scenario and a
membership instance. -/
theorem network_adjustment_witness :
    ("x" ∈ adjustSourcesForNetwork [] [] ["x"] NetworkType.threeG ↔
      "x" ∈ rankSources [] [] ["x"] ∧
        ¬∃ st, StatsMap.find [] "x" = some st ∧
          st.qualityScore > 85 ∧ st.avgResponseTime > 300) ∧
    adjustSourcesForNetwork netRegistry [] ["A", "B"] NetworkType.threeG = ["B"] :=
  ⟨network_adjustment.1 [] [] ["x"] NetworkType.threeG "x" (Or.inl rfl),
   network_adjustment.2 netRegistry [] "A" "B" netStatsA netStatsB (by decide)
     (by decide) rfl rfl rfl rfl (by decide) (by decide)⟩

/-! ### CacheService

Two-tier cache store from `src/services/cache/CacheService.ts`.  The local
tier is the in-memory LRU cache (`max: 1000`, default ttl 300 s,
`updateAgeOnGet: true`); the shared tier is Redis, present only when
`redisAvailable`.  Values have an abstract type `V`; the Redis JSON
round-trip (`JSON.parse ∘ JSON.stringify`) is modelled as the identity,
which is faithful for the plain-data payloads the service stores.  Times
are rationals in milliseconds; each entry keeps its `start` stamp and its
ttl, and an entry is fresh while `now < start + ttl` (lru-cache with
`allowStale: false`; Redis `EX` expiry server-side). -/

/-- `CachePriority` enum. -/
inductive CachePriority where
  | low | normal | high
deriving DecidableEq

/-- `CacheLevel` enum. -/
inductive CacheLevel where
  | memory | redis
deriving DecidableEq

/-- `this.TTL`: the priority-derived default TTL table, in seconds. -/
def TTL : CachePriority → Nat
  | .low => 15 * 60
  | .normal => 60 * 60
  | .high => 6 * 60 * 60

/-- A local-tier entry: value, write (or age-reset) time, ttl in ms. -/
structure MemEntry (V : Type) where
  value : V
  start : ℚ
  ttlMs : ℚ
deriving DecidableEq

/-- A shared-tier entry: value, write time, `EX` ttl in seconds. -/
structure RedisEntry (V : Type) where
  value : V
  start : ℚ
  ttlSec : ℚ
deriving DecidableEq

/-- The observable state of a `CacheService` instance. -/
structure CacheState (V : Type) where
  memory : List (String × MemEntry V)
  redisAvailable : Bool
  redis : List (String × RedisEntry V)
  hits : Nat
  misses : Nat
deriving DecidableEq

/-- Local-tier lookup at time `now`: stale entries are not returned. -/
def memLookup {V : Type} (mem : List (String × MemEntry V)) (key : String)
    (now : ℚ) : Option (MemEntry V) :=
  match alookup mem key with
  | some e => if now < e.start + e.ttlMs then some e else none
  | none => none

/-- Shared-tier lookup at time `now` (Redis expires entries server-side). -/
def redisLookup {V : Type} (rds : List (String × RedisEntry V)) (key : String)
    (now : ℚ) : Option (RedisEntry V) :=
  match alookup rds key with
  | some e => if now < e.start + e.ttlSec * 1000 then some e else none
  | none => none

/-- `options?: Partial<CacheOptions>` of `CacheService.set`; an absent field
is `none`. -/
structure SetOptions where
  ttl : Option ℚ := none
  level : Option CacheLevel := none
  priority : Option CachePriority := none

namespace CacheService

/-- `get(key)`: local tier first (hit resets the entry's age,
`updateAgeOnGet: true`); then the shared tier when available, re-populating
the local tier with the constructor-default 300 s ttl; a miss in all
available tiers bumps `misses`, a hit bumps `hits`. -/
def get {V : Type} (st : CacheState V) (key : String) (now : ℚ) :
    Option V × CacheState V :=
  match memLookup st.memory key now with
  | some e =>
      (some e.value,
       { st with hits := st.hits + 1,
                 memory := aset st.memory key { e with start := now } })
  | none =>
      if st.redisAvailable then
        match redisLookup st.redis key now with
        | some e =>
            (some e.value,
             { st with hits := st.hits + 1,
                       memory := aset st.memory key ⟨e.value, now, 300 * 1000⟩ })
        | none => (none, { st with misses := st.misses + 1 })
      else (none, { st with misses := st.misses + 1 })

/-- The TTL actually used by `set`.  The JS merges
`{ttl: 300, level: MEMORY, priority: NORMAL}` with `options`, then replaces
the ttl by the priority default when `!options?.ttl` — i.e. when `ttl` was
absent **or 0** (JS falsiness; the merged default 300 is dead code because
`opts.priority` is always truthy here). -/
def resolveTtl (options : SetOptions) : ℚ :=
  let priority := options.priority.getD CachePriority.normal
  match options.ttl with
  | some t => if t = 0 then (TTL priority : ℚ) else t
  | none => (TTL priority : ℚ)

/-- `set(key, value, options)`: always writes the local tier with the
resolved ttl; writes the shared tier only for `level: REDIS` when Redis is
available. -/
def set {V : Type} (st : CacheState V) (key : String) (value : V)
    (options : SetOptions) (now : ℚ) : CacheState V :=
  let level := options.level.getD CacheLevel.memory
  let ttl : ℚ := resolveTtl options
  let st1 := { st with memory := aset st.memory key ⟨value, now, ttl * 1000⟩ }
  if level = CacheLevel.redis ∧ st1.redisAvailable = true then
    { st1 with redis := aset st1.redis key ⟨value, now, ttl⟩ }
  else st1

/-- `delete(key)`: both tiers (shared tier only when available). -/
def delete {V : Type} (st : CacheState V) (key : String) : CacheState V :=
  let st1 := { st with memory := adel st.memory key }
  if st1.redisAvailable = true then { st1 with redis := adel st1.redis key }
  else st1

end CacheService

/-- `key.startsWith(prefix)` (character-level, as in JS). -/
def strStartsWith (s pre : String) : Bool :=
  pre.data.isPrefixOf s.data

/-- `deleteByPrefix(prefix)`: drops every local-tier key that starts with
`pre`; when Redis is available, bulk-deletes the keys matching `pre*`
(the prefix is used verbatim; payload keys contain no glob metacharacters). -/
def CacheService.deleteByPrefix {V : Type} (st : CacheState V) (pre : String) :
    CacheState V :=
  let st1 := { st with
    memory := st.memory.filter (fun kv => !(strStartsWith kv.1 pre)) }
  if st1.redisAvailable = true then
    { st1 with redis := st1.redis.filter (fun kv => !(strStartsWith kv.1 pre)) }
  else st1

/-- `(x).toFixed(2)` for the non-negative rationals produced by the hit-rate
computation: round half-up to two decimals and print with a two-digit
fractional part. -/
def toFixed2 (q : ℚ) : String :=
  let n := (q * 100 + 1 / 2).floor.toNat
  let whole := n / 100
  let frac := n % 100
  toString whole ++ "." ++ (if frac < 10 then "0" else "") ++ toString frac

/-- The `CacheStats` record returned by `getStats` (`memorySizeBytes`, read
from the process heap, is outside the model). -/
structure CacheStats where
  hits : Nat
  misses : Nat
  size : Nat
  memoryItems : Nat
  hitRate : String
deriving DecidableEq

/-- `getStats()`: counters plus the formatted hit rate
(`(hits/total*100).toFixed(2) + '%'`, or `'0%'` when there were no gets). -/
def CacheService.getStats {V : Type} (st : CacheState V) : CacheStats :=
  let total := st.hits + st.misses
  { hits := st.hits, misses := st.misses,
    size := st.memory.length, memoryItems := st.memory.length,
    hitRate :=
      if total > 0 then toFixed2 ((st.hits : ℚ) / (total : ℚ) * 100) ++ "%"
      else "0%" }

/-! ### SongCacheService -/

/-- `SongCacheService.SONG_PREFIX`. -/
def SONG_PREFIX : String := "song:"

/-- `SongCacheService.SOURCE_PREFIX`. -/
def SOURCE_PREFIX : String := "source:"

/-- `getSongKey(id, source?)`: `song:{id}` or `song:{id}:{source}`. -/
def getSongKey (id : String) (source : Option String) : String :=
  match source with
  | some s => SONG_PREFIX ++ id ++ ":" ++ s
  | none => SONG_PREFIX ++ id

/-- `getSourceKey(id)`: `source:{id}`. -/
def getSourceKey (id : String) : String :=
  SOURCE_PREFIX ++ id

/-- `options?: Partial<SongCacheOptions>`; defaults
`{duration: 86400, useRedis: true, priority: NORMAL}`. -/
structure SongCacheOptions where
  duration : Option ℚ := none
  useRedis : Option Bool := none
  priority : Option CachePriority := none

/-- `cacheSongSourceInfo(id, source, data, options)`. -/
def cacheSongSourceInfo {V : Type} (st : CacheState V) (id source : String)
    (data : V) (options : SongCacheOptions) (now : ℚ) : CacheState V :=
  let duration := options.duration.getD 86400
  let useRedis := options.useRedis.getD true
  let priority := options.priority.getD CachePriority.normal
  CacheService.set st (getSongKey id (some source)) data
    { ttl := some duration,
      level := some (if useRedis then CacheLevel.redis else CacheLevel.memory),
      priority := some priority } now

/-- `getSongSourceInfo(id, source)`. -/
def getSongSourceInfo {V : Type} (st : CacheState V) (id source : String)
    (now : ℚ) : Option V × CacheState V :=
  CacheService.get st (getSongKey id (some source)) now

/-- `clearSourceCache(source)`: deletes by the (malformed) prefix
`` `${SONG_PREFIX}:${source}` `` = `song::{source}`. -/
def clearSourceCache {V : Type} (st : CacheState V) (source : String) :
    CacheState V :=
  CacheService.deleteByPrefix st (SONG_PREFIX ++ ":" ++ source)

/-! ### Cache-store lemmas -/

theorem alookup_filter_pred {β : Type} (l : List (String × β)) (p : String → Bool)
    (k : String) :
    alookup (l.filter (fun kv => p kv.1)) k =
      if p k then alookup l k else none := by
  induction l with
  | nil => cases h : p k <;> simp [alookup, h]
  | cons kv rest ih =>
      by_cases hk : kv.1 = k
      · subst hk
        cases h : p kv.1 <;>
          simp [List.filter_cons, h, alookup, ih]
      · cases h : p kv.1 <;>
          simp [List.filter_cons, h, alookup, hk, ih]

theorem set_memory {V : Type} (st : CacheState V) (key : String) (v : V)
    (options : SetOptions) (now : ℚ) :
    (CacheService.set st key v options now).memory =
      aset st.memory key ⟨v, now, CacheService.resolveTtl options * 1000⟩ := by
  unfold CacheService.set
  dsimp only
  split <;> rfl

theorem set_redisAvailable {V : Type} (st : CacheState V) (key : String) (v : V)
    (options : SetOptions) (now : ℚ) :
    (CacheService.set st key v options now).redisAvailable = st.redisAvailable := by
  unfold CacheService.set
  dsimp only
  split <;> rfl

theorem set_hits {V : Type} (st : CacheState V) (key : String) (v : V)
    (options : SetOptions) (now : ℚ) :
    (CacheService.set st key v options now).hits = st.hits := by
  unfold CacheService.set
  dsimp only
  split <;> rfl

theorem set_misses {V : Type} (st : CacheState V) (key : String) (v : V)
    (options : SetOptions) (now : ℚ) :
    (CacheService.set st key v options now).misses = st.misses := by
  unfold CacheService.set
  dsimp only
  split <;> rfl

theorem set_default_redis {V : Type} (st : CacheState V) (key : String) (v : V)
    (now : ℚ) : (CacheService.set st key v {} now).redis = st.redis := rfl

theorem resolveTtl_default : CacheService.resolveTtl {} = ((3600 : Nat) : ℚ) := rfl

theorem resolveTtl_pos_of_ne_zero (options : SetOptions) (t : ℚ)
    (ht : options.ttl = some t) (ht0 : t ≠ 0) :
    CacheService.resolveTtl options = t := by
  unfold CacheService.resolveTtl
  rw [ht]
  exact if_neg ht0

theorem deleteByPrefix_memory {V : Type} (st : CacheState V) (pre : String) :
    (CacheService.deleteByPrefix st pre).memory =
      st.memory.filter (fun kv => !(strStartsWith kv.1 pre)) := by
  unfold CacheService.deleteByPrefix
  dsimp only
  split <;> rfl

theorem deleteByPrefix_redisAvailable {V : Type} (st : CacheState V) (pre : String) :
    (CacheService.deleteByPrefix st pre).redisAvailable = st.redisAvailable := by
  unfold CacheService.deleteByPrefix
  dsimp only
  split <;> rfl

theorem deleteByPrefix_redis_of_available {V : Type} (st : CacheState V)
    (pre : String) (h : st.redisAvailable = true) :
    (CacheService.deleteByPrefix st pre).redis =
      st.redis.filter (fun kv => !(strStartsWith kv.1 pre)) := by
  unfold CacheService.deleteByPrefix
  dsimp only
  rw [if_pos h]

/-! ### Claims about the cache store -/

/-- **C7 (amended)** — For every `set` supplying a **nonzero** numeric
`ttlSeconds`, the local-tier entry (and, when written, the shared-tier entry)
uses exactly the supplied ttl, not the priority-derived default.  (A supplied
ttl of 0 is falsy in JS and falls back to the priority default; see the
counterexample.) -/
theorem ttl_override (V : Type) (st : CacheState V) (key : String) (v : V)
    (options : SetOptions) (now t : ℚ)
    (ht : options.ttl = some t) (ht0 : t ≠ 0) :
    alookup (CacheService.set st key v options now).memory key =
      some ⟨v, now, t * 1000⟩ ∧
    (options.level = some CacheLevel.redis → st.redisAvailable = true →
      alookup (CacheService.set st key v options now).redis key =
        some ⟨v, now, t⟩) := by
  have htt := resolveTtl_pos_of_ne_zero options t ht ht0
  constructor
  · rw [set_memory, htt]
    exact alookup_aset_self _ _ _
  · intro hlev hav
    rw [show (CacheService.set st key v options now).redis =
          aset st.redis key ⟨v, now, CacheService.resolveTtl options⟩ by
        unfold CacheService.set
        dsimp only
        rw [if_pos ⟨by rw [hlev]; rfl, hav⟩]]
    rw [htt]
    exact alookup_aset_self _ _ _

/-- Witness for `ttl_override` at a concrete store and options. -/
theorem ttl_override_witness :
    alookup (CacheService.set (⟨[], true, [], 0, 0⟩ : CacheState Nat) "k" 7
        { ttl := some 42, level := some CacheLevel.redis } 0).memory "k" =
      some ⟨7, 0, 42 * 1000⟩ ∧
    alookup (CacheService.set (⟨[], true, [], 0, 0⟩ : CacheState Nat) "k" 7
        { ttl := some 42, level := some CacheLevel.redis } 0).redis "k" =
      some ⟨7, 0, 42⟩ := by
  have h := ttl_override Nat (⟨[], true, [], 0, 0⟩ : CacheState Nat) "k" 7
    { ttl := some 42, level := some CacheLevel.redis } 0 42 rfl (by norm_num)
  exact ⟨h.1, h.2 rfl rfl⟩

/-- **C7 (counterexample)** — `set` with a supplied `ttlSeconds` of `0` does
**not** use the supplied value: the local-tier entry gets the
priority-derived default of 3600 s (3 600 000 ms), refuting the claim for the
supplied value 0. -/
theorem ttl_zero_counterexample :
    (alookup (CacheService.set (⟨[], false, [], 0, 0⟩ : CacheState Nat)
        "k" 7 { ttl := some 0 } 0).memory "k").map (fun e => e.ttlMs) =
      some 3600000 ∧
    (alookup (CacheService.set (⟨[], false, [], 0, 0⟩ : CacheState Nat)
        "k" 7 { ttl := some 0 } 0).memory "k").map (fun e => e.ttlMs) ≠
      some (0 * 1000) := by
  constructor <;> decide

theorem get_miss_stats {V : Type} (st : CacheState V) (key : String) (now : ℚ)
    (h : (CacheService.get st key now).1 = none) :
    (CacheService.get st key now).2.misses = st.misses + 1 ∧
    (CacheService.get st key now).2.hits = st.hits := by
  unfold CacheService.get at h ⊢
  cases hm : memLookup st.memory key now with
  | some e => simp [hm] at h
  | none =>
      simp only [hm] at h ⊢
      cases hav : st.redisAvailable with
      | false => simp [hav]
      | true =>
          simp only [hav] at h ⊢
          cases hr : redisLookup st.redis key now with
          | some e => simp [hr] at h
          | none => simp [hr]

theorem get_hit_stats {V : Type} (st : CacheState V) (key : String) (now : ℚ)
    (v : V) (h : (CacheService.get st key now).1 = some v) :
    (CacheService.get st key now).2.hits = st.hits + 1 ∧
    (CacheService.get st key now).2.misses = st.misses := by
  unfold CacheService.get at h ⊢
  cases hm : memLookup st.memory key now with
  | some e => simp [hm]
  | none =>
      simp only [hm] at h ⊢
      cases hav : st.redisAvailable with
      | false => simp [hav] at h
      | true =>
          simp only [hav] at h ⊢
          cases hr : redisLookup st.redis key now with
          | some e => simp [hr]
          | none => simp [hr] at h

theorem memLookup_after_set_self {V : Type} (st : CacheState V) (key : String)
    (v : V) (now : ℚ) :
    memLookup (CacheService.set st key v {} now).memory key now =
      some ⟨v, now, CacheService.resolveTtl {} * 1000⟩ := by
  have hpos : (0 : ℚ) < CacheService.resolveTtl {} * 1000 := by
    rw [resolveTtl_default]
    norm_num
  unfold memLookup
  rw [set_memory, alookup_aset_self]
  dsimp only
  rw [if_pos (by linarith)]

theorem get_after_set_self {V : Type} (st : CacheState V) (key : String)
    (v : V) (now : ℚ) :
    CacheService.get (CacheService.set st key v {} now) key now =
      (some v,
       { CacheService.set st key v {} now with
         hits := (CacheService.set st key v {} now).hits + 1,
         memory := aset (CacheService.set st key v {} now).memory key
           ⟨v, now, CacheService.resolveTtl {} * 1000⟩ }) := by
  unfold CacheService.get
  rw [memLookup_after_set_self]

/-- **C8** — Hit-rate accounting: a `get` that misses in all available tiers
bumps `misses` by exactly one (leaving `hits` alone) and a `get` that hits
bumps `hits` by exactly one (leaving `misses` alone); and from a zeroed-stats
state, get-miss / set / get-hit on one key leaves `hits = 1`, `misses = 1`,
with `getStats` reporting the hit rate `"50.00%"`. -/
theorem hit_rate_accounting (V : Type) :
    (∀ (st : CacheState V) (key : String) (now : ℚ),
       ((CacheService.get st key now).1 = none →
         (CacheService.get st key now).2.misses = st.misses + 1 ∧
         (CacheService.get st key now).2.hits = st.hits) ∧
       (∀ v, (CacheService.get st key now).1 = some v →
         (CacheService.get st key now).2.hits = st.hits + 1 ∧
         (CacheService.get st key now).2.misses = st.misses)) ∧
    (∀ (st : CacheState V) (key : String) (v : V) (now : ℚ),
       st.hits = 0 → st.misses = 0 →
       (CacheService.get st key now).1 = none →
       (CacheService.get (CacheService.set ((CacheService.get st key now).2)
          key v {} now) key now).1 = some v ∧
       (CacheService.get (CacheService.set ((CacheService.get st key now).2)
          key v {} now) key now).2.hits = 1 ∧
       (CacheService.get (CacheService.set ((CacheService.get st key now).2)
          key v {} now) key now).2.misses = 1 ∧
       (CacheService.getStats ((CacheService.get (CacheService.set
          ((CacheService.get st key now).2) key v {} now) key now).2)).hitRate =
         "50.00%") := by
  constructor
  · intro st key now
    exact ⟨get_miss_stats st key now, fun v => get_hit_stats st key now v⟩
  · intro st key v now hh hm habs
    obtain ⟨hm1, hh1⟩ := get_miss_stats st key now habs
    have hg := get_after_set_self ((CacheService.get st key now).2) key v now
    have hhits : (CacheService.get (CacheService.set ((CacheService.get st key now).2)
        key v {} now) key now).2.hits = 1 := by
      rw [hg]
      show (CacheService.set ((CacheService.get st key now).2) key v {} now).hits + 1 = 1
      rw [set_hits, hh1, hh]
    have hmisses : (CacheService.get (CacheService.set ((CacheService.get st key now).2)
        key v {} now) key now).2.misses = 1 := by
      rw [hg]
      show (CacheService.set ((CacheService.get st key now).2) key v {} now).misses = 1
      rw [set_misses, hm1, hm]
    refine ⟨by rw [hg], hhits, hmisses, ?_⟩
    show (if ((CacheService.get (CacheService.set ((CacheService.get st key now).2)
          key v {} now) key now).2.hits +
        (CacheService.get (CacheService.set ((CacheService.get st key now).2)
          key v {} now) key now).2.misses) > 0 then
        toFixed2 (((CacheService.get (CacheService.set ((CacheService.get st key now).2)
          key v {} now) key now).2.hits : ℚ) /
          (((CacheService.get (CacheService.set ((CacheService.get st key now).2)
            key v {} now) key now).2.hits +
           (CacheService.get (CacheService.set ((CacheService.get st key now).2)
            key v {} now) key now).2.misses : Nat) : ℚ) * 100) ++ "%"
      else "0%") = "50.00%"
    rw [hhits, hmisses]
    decide

/-- Witness for `hit_rate_accounting` on a concrete empty store. -/
theorem hit_rate_accounting_witness :
    (CacheService.get (CacheService.set ((CacheService.get
       (⟨[], false, [], 0, 0⟩ : CacheState Nat) "k" 0).2) "k" 42 {} 0) "k" 0).1 =
      some 42 ∧
    (CacheService.getStats ((CacheService.get (CacheService.set
       ((CacheService.get (⟨[], false, [], 0, 0⟩ : CacheState Nat) "k" 0).2)
       "k" 42 {} 0) "k" 0).2)).hitRate = "50.00%" :=
  have h := (hit_rate_accounting Nat).2 (⟨[], false, [], 0, 0⟩ : CacheState Nat)
    "k" 42 0 rfl rfl (by decide)
  ⟨h.1, h.2.2.2⟩

theorem get_none_of_lookups_none (V : Type) (st : CacheState V) (key : String)
    (now : ℚ) (hm : memLookup st.memory key now = none)
    (hr : st.redisAvailable = true → redisLookup st.redis key now = none) :
    (CacheService.get st key now).1 = none := by
  unfold CacheService.get
  rw [hm]
  dsimp only
  cases hav : st.redisAvailable with
  | false => rfl
  | true =>
      rw [hr hav]
      rfl

/-- **C9** — Prefix deletion frame property: `deleteByPrefix(prefix)` removes
from the local tier exactly the keys that start with the prefix and leaves
every other key's entry unchanged; and concretely, after setting `song:1`,
`song:1:kugou` and `other:1`, deleting by prefix `song:1` leaves `other:1`
retrievable while both `song:1*` keys read back as absent. -/
theorem prefix_deletion (V : Type) :
    (∀ (st : CacheState V) (pre key : String),
       (strStartsWith key pre = true →
         alookup (CacheService.deleteByPrefix st pre).memory key = none) ∧
       (strStartsWith key pre = false →
         alookup (CacheService.deleteByPrefix st pre).memory key =
           alookup st.memory key)) ∧
    (∀ (st : CacheState V) (a b c : V) (now : ℚ),
       (CacheService.get (CacheService.deleteByPrefix (CacheService.set
          (CacheService.set (CacheService.set st "song:1" a {} now)
            "song:1:kugou" b {} now) "other:1" c {} now) "song:1")
          "other:1" now).1 = some c ∧
       (CacheService.get (CacheService.deleteByPrefix (CacheService.set
          (CacheService.set (CacheService.set st "song:1" a {} now)
            "song:1:kugou" b {} now) "other:1" c {} now) "song:1")
          "song:1" now).1 = none ∧
       (CacheService.get (CacheService.deleteByPrefix (CacheService.set
          (CacheService.set (CacheService.set st "song:1" a {} now)
            "song:1:kugou" b {} now) "other:1" c {} now) "song:1")
          "song:1:kugou" now).1 = none) := by
  have hgen : ∀ (st : CacheState V) (pre key : String),
      alookup (CacheService.deleteByPrefix st pre).memory key =
        if !(strStartsWith key pre) then alookup st.memory key else none := by
    intro st pre key
    rw [deleteByPrefix_memory]
    exact alookup_filter_pred st.memory (fun k => !(strStartsWith k pre)) key
  constructor
  · intro st pre key
    constructor
    · intro h
      rw [hgen, h]
      rfl
    · intro h
      rw [hgen, h]
      rfl
  · intro st a b c now
    have hmemNone : ∀ key : String, strStartsWith key "song:1" = true →
        memLookup (CacheService.deleteByPrefix (CacheService.set
          (CacheService.set (CacheService.set st "song:1" a {} now)
            "song:1:kugou" b {} now) "other:1" c {} now) "song:1").memory
          key now = none := by
      intro key hpf
      unfold memLookup
      rw [hgen, hpf]
      rw [if_neg (by simp)]
    have hredisNone : ∀ key : String, strStartsWith key "song:1" = true →
        (CacheService.deleteByPrefix (CacheService.set
          (CacheService.set (CacheService.set st "song:1" a {} now)
            "song:1:kugou" b {} now) "other:1" c {} now)
          "song:1").redisAvailable = true →
        redisLookup (CacheService.deleteByPrefix (CacheService.set
          (CacheService.set (CacheService.set st "song:1" a {} now)
            "song:1:kugou" b {} now) "other:1" c {} now) "song:1").redis
          key now = none := by
      intro key hpf hav
      rw [deleteByPrefix_redis_of_available _ _ (by
        rw [← deleteByPrefix_redisAvailable _ "song:1"]
        exact hav)]
      unfold redisLookup
      rw [alookup_filter_pred _ (fun x => !(strStartsWith x "song:1")) key, hpf]
      rw [if_neg (by simp)]
    refine ⟨?_, ?_, ?_⟩
    · have h1 : memLookup (CacheService.deleteByPrefix (CacheService.set
          (CacheService.set (CacheService.set st "song:1" a {} now)
            "song:1:kugou" b {} now) "other:1" c {} now) "song:1").memory
          "other:1" now =
          some ⟨c, now, CacheService.resolveTtl {} * 1000⟩ := by
        have hpos : (0 : ℚ) < CacheService.resolveTtl {} * 1000 := by
          rw [resolveTtl_default]
          norm_num
        have hno : strStartsWith "other:1" "song:1" = false := by decide
        unfold memLookup
        rw [hgen, hno]
        rw [if_pos (by simp)]
        rw [set_memory, alookup_aset_self]
        dsimp only
        rw [if_pos (by linarith)]
      unfold CacheService.get
      rw [h1]
    · exact get_none_of_lookups_none V _ "song:1" now
        (hmemNone "song:1" (by decide)) (hredisNone "song:1" (by decide))
    · exact get_none_of_lookups_none V _ "song:1:kugou" now
        (hmemNone "song:1:kugou" (by decide)) (hredisNone "song:1:kugou" (by decide))

/-- Witness for `prefix_deletion` at a concrete store. -/
theorem prefix_deletion_witness :
    alookup (CacheService.deleteByPrefix
      (⟨[("song:1", ⟨1, 0, 1000⟩)], false, [], 0, 0⟩ : CacheState Nat)
      "song:1").memory "song:1" = none ∧
    (CacheService.get (CacheService.deleteByPrefix (CacheService.set
       (CacheService.set (CacheService.set (⟨[], false, [], 0, 0⟩ : CacheState Nat)
         "song:1" 1 {} 0) "song:1:kugou" 2 {} 0) "other:1" 3 {} 0) "song:1")
       "other:1" 0).1 = some 3 :=
  ⟨((prefix_deletion Nat).1 (⟨[("song:1", ⟨1, 0, 1000⟩)], false, [], 0, 0⟩ :
      CacheState Nat) "song:1" "song:1").1 (by decide),
   ((prefix_deletion Nat).2 (⟨[], false, [], 0, 0⟩ : CacheState Nat) 1 2 3 0).1⟩

/-- **C2** — `clearSourceCache` evaluated at the failing input: the method
deletes by the prefix `song::{source}`, which never matches the stored key
`song:{id}:{source}`; after `cacheSongSourceInfo("1", "kugou", 42)` and
`clearSourceCache("kugou")`, `getSongSourceInfo("1", "kugou")` still returns
the cached value instead of absent, contradicting both the spec and the
method's own doc comment. -/
theorem clearSourceCache_bug :
    (getSongSourceInfo (clearSourceCache
       (cacheSongSourceInfo (⟨[], false, [], 0, 0⟩ : CacheState Nat)
         "1" "kugou" 42 {} 0) "kugou") "1" "kugou" 0).1 = some 42 := by
  decide

end UNM
